import Mathlib

/-!
Verification development for the zentra client-side price-aggregation and
balance-synchronization layer.

The definitions below are a shallow embedding of the two components:

* `src/hooks/use-crypto-prices.ts` — the multi-source price fetcher
  (`useCryptoPrices`): circuit breakers per source, merge with fixed
  priority, static fallback backfill, 30-second cache guard, and the
  `getPrice`/`formatPrice` accessors.
* `src/unnamed/part_000` — the balance hook (`useBalance`): retrying
  `loadBalances`, the session-transition effect, the realtime-subscription
  status callback with its polling failover, and the portfolio accessors.

JavaScript numbers are embedded as rationals; where the code's behavior
distinguishes `NaN` (the `isNaN` check in `getPrice`), a stored number is
embedded as `JsNum`, a rational or `NaN`. Time stamps (`Date.now()`) are
naturals. The network is a parameter: each fetch function takes the data
the wire would have produced, so every definition is executable.
-/

namespace Zentra

/-- A JavaScript number as stored in the price table: a real (rational)
value or `NaN`.  `getPrice` tests `isNaN(price)`, so the embedding keeps
the `NaN` case explicit. -/
inductive JsNum where
  | num (q : ℚ)
  | nan
deriving Repr, DecidableEq

/-- JavaScript `x > 0` on a stored number (`NaN > 0` is `false`). -/
def JsNum.gtZero : JsNum → Bool
  | .num q => decide (0 < q)
  | .nan => false

/-- JavaScript `x === 0` on a stored number (`NaN === 0` is `false`). -/
def JsNum.isZero : JsNum → Bool
  | .num q => decide (q = 0)
  | .nan => false

/-- One entry of the `CryptoPrices` table: `{ price, change24h, lastUpdated }`.
`change24h` is embedded as a plain rational; no claim depends on its `NaN`
behavior.  `lastUpdated` is a timestamp. -/
structure PriceEntry where
  price : JsNum
  change24h : ℚ
  lastUpdated : Nat
deriving Repr, DecidableEq

/-- The `CryptoPrices` dictionary (a JS object keyed by symbol), embedded
as an association list; `List.lookup` is JS property access. -/
abbrev CryptoPrices := List (String × PriceEntry)

/-- The keys of `COINGECKO_IDS` (= of `COINCAP_IDS` = of `BINANCE_SYMBOLS`):
the fixed known symbol set the aggregator iterates over. -/
def knownSymbols : List String := ["BTC", "ETH", "USDT", "SOL"]

/-- A static fallback quote: hardcoded last-known-good price and change%. -/
structure FallbackQuote where
  price : ℚ
  change24h : ℚ
deriving Repr, DecidableEq

/-- `FALLBACK_PRICES` from `use-crypto-prices.ts`. -/
def FALLBACK_PRICES : List (String × FallbackQuote) :=
  [("BTC", { price := 95000, change24h := 5 / 2 }),
   ("ETH", { price := 3500, change24h := 9 / 5 }),
   ("USDT", { price := 1, change24h := 1 / 100 }),
   ("SOL", { price := 150, change24h := 16 / 5 })]

/-- `FALLBACK_PRICES[symbol]` (JS property access on the fallback table). -/
def lookupFallback (symbol : String) : Option FallbackQuote :=
  FALLBACK_PRICES.lookup symbol

/-- `CircuitBreakerState` from `use-crypto-prices.ts`:
`{ failures, lastFailureTime, isOpen }`. -/
structure CircuitBreakerState where
  failures : Nat
  lastFailureTime : Nat
  isOpen : Bool
deriving Repr, DecidableEq

/-- `CIRCUIT_BREAKER_THRESHOLD = 3`. -/
def CIRCUIT_BREAKER_THRESHOLD : Nat := 3

/-- `CIRCUIT_BREAKER_RESET_TIME = 300000` (five minutes). -/
def CIRCUIT_BREAKER_RESET_TIME : Nat := 300000

/-- `checkCircuitBreaker`: while open, short-circuit until more than the
reset time has passed since the last failure, at which point the breaker
closes and the failure counter resets.  The source mutates the breaker in
a module map and returns a boolean; here the updated state is returned
alongside.  `Date.now()` is the `now` argument. -/
def checkCircuitBreaker (b : CircuitBreakerState) (now : Nat) :
    Bool × CircuitBreakerState :=
  if b.isOpen then
    if CIRCUIT_BREAKER_RESET_TIME < now - b.lastFailureTime then
      (true, { b with isOpen := false, failures := 0 })
    else
      (false, b)
  else
    (true, b)

/-- `recordFailure`: bump the counter, stamp the failure time, and open the
breaker once the threshold is reached. -/
def recordFailure (b : CircuitBreakerState) (now : Nat) : CircuitBreakerState :=
  let b1 := { b with failures := b.failures + 1, lastFailureTime := now }
  if CIRCUIT_BREAKER_THRESHOLD ≤ b1.failures then { b1 with isOpen := true } else b1

/-- `recordSuccess`: reset the counter and close the breaker. -/
def recordSuccess (b : CircuitBreakerState) : CircuitBreakerState :=
  { b with failures := 0, isOpen := false }

/-- What the network and JSON parsing of one source call would yield:
either a non-empty parsed price table, or any failure (HTTP error, abort,
empty parse — the source throws in all those cases). -/
inductive NetworkOutcome where
  | success (prices : CryptoPrices)
  | failure
deriving Repr, DecidableEq

/-- The breaker gate common to `fetchFromCoinGecko` / `fetchFromCoinCap` /
`fetchFromBinance`: if the breaker check fails, return `null` with no
network I/O; otherwise perform the call (its result is the `outcome`
parameter), recording success or failure on the breaker.  The third
component reports whether network I/O was performed. -/
def fetchAttempt (b : CircuitBreakerState) (now : Nat) (outcome : NetworkOutcome) :
    Option CryptoPrices × CircuitBreakerState × Bool :=
  match checkCircuitBreaker b now with
  | (false, b1) => (none, b1, false)
  | (true, b1) =>
    match outcome with
    | .success ps => (some ps, recordSuccess b1, true)
    | .failure => (none, recordFailure b1 now, true)

/-- The inner loop of `mergePrices` for one symbol: walk the sources in the
given order and take the first one whose entry for the symbol is present
with a positive price (`prices && prices[symbol] && prices[symbol].price > 0`). -/
def firstPositive (symbol : String) : List (Option CryptoPrices) → Option PriceEntry
  | [] => none
  | none :: rest => firstPositive symbol rest
  | some ps :: rest =>
    match ps.lookup symbol with
    | some e => if e.price.gtZero then some e else firstPositive symbol rest
    | none => firstPositive symbol rest

/-- `mergePrices`: for each known symbol, the first source's present positive
entry wins; symbols no source priced are absent from the merged table. -/
def mergePrices (priceSources : List (Option CryptoPrices)) : CryptoPrices :=
  knownSymbols.filterMap fun symbol =>
    (firstPositive symbol priceSources).map fun e => (symbol, e)

/-- The price entry built from a static fallback quote, stamped `now`
(`new Date().toISOString()` in the source). -/
def fallbackEntry (f : FallbackQuote) (now : Nat) : PriceEntry :=
  { price := .num f.price, change24h := f.change24h, lastUpdated := now }

/-- The backfill decision of `fetchPrices` for one symbol: keep the merged
entry unless it is missing or has price `=== 0`, in which case use the
static fallback when one exists (`if (!finalPrices[symbol] ||
finalPrices[symbol].price === 0)`). -/
def finalEntry (merged : CryptoPrices) (now : Nat) (symbol : String) :
    Option PriceEntry :=
  match merged.lookup symbol with
  | some e =>
    if e.price.isZero then
      match lookupFallback symbol with
      | some f => some (fallbackEntry f now)
      | none => some e
    else some e
  | none =>
    match lookupFallback symbol with
    | some f => some (fallbackEntry f now)
    | none => none

/-- The `finalPrices` table of `fetchPrices`: the merged table back-filled
per known symbol. -/
def backfill (merged : CryptoPrices) (now : Nat) : CryptoPrices :=
  knownSymbols.filterMap fun symbol =>
    (finalEntry merged now symbol).map fun e => (symbol, e)

/-- The hook state touched by `fetchPrices` inside `useCryptoPrices`:
the `prices` table, the `lastFetchTime` ref, the `isFetching` ref, the
`loading` flag and the `error` string. -/
structure PriceState where
  prices : CryptoPrices
  lastFetchTime : Nat
  isFetching : Bool
  loading : Bool
  error : Option String
deriving Repr, DecidableEq

/-- `CACHE_DURATION = 30000` (thirty seconds). -/
def CACHE_DURATION : Nat := 30000

/-- `fetchPrices` as a state transformer.  The three source results are
parameters: each is the table the corresponding `retryWithBackoff(fetchFromX)`
call settled with (`none` when the source failed or was short-circuited).
Returns the new hook state and whether a network round was performed.
The two early returns are the reentrancy guard (`isFetching.current`) and
the cache guard; the main path merges the sources in the fixed order
CoinGecko, CoinCap, Binance, backfills from the static fallback table,
stamps `lastFetchTime`, and sets the advisory error message. -/
def fetchPrices (st : PriceState) (now : Nat)
    (coingecko coincap binance : Option CryptoPrices) : PriceState × Bool :=
  if st.isFetching then (st, false)
  else if now - st.lastFetchTime < CACHE_DURATION ∧ st.prices ≠ [] then (st, false)
  else
    let mergedPrices := mergePrices [coingecko, coincap, binance]
    let finalPrices := backfill mergedPrices now
    let errorMsg : Option String :=
      if mergedPrices = [] then some "All APIs failed, using fallback prices"
      else if mergedPrices.length < knownSymbols.length then
        some "Some prices unavailable, using fallback for missing tokens"
      else none
    ({ prices := finalPrices, lastFetchTime := now, isFetching := false,
       loading := false, error := errorMsg }, true)

/-- The table the mount effect of `useCryptoPrices` seeds before the first
fetch: every known symbol's static fallback quote, stamped `now`. -/
def initialPrices (now : Nat) : CryptoPrices :=
  knownSymbols.filterMap fun symbol =>
    (lookupFallback symbol).map fun f => (symbol, fallbackEntry f now)

/-- `getPrice`: `null` when the symbol is falsy, the entry is absent, or
the stored price is `0` or `NaN`. -/
def getPrice (prices : CryptoPrices) (symbol : String) : Option ℚ :=
  if symbol = "" then none
  else
    match prices.lookup symbol with
    | none => none
    | some e =>
      match e.price with
      | .nan => none
      | .num q => if q = 0 then none else some q

/-- Left-pad a digit string with zeros to the given length. -/
def padLeftZeros (s : String) (len : Nat) : String :=
  String.mk (List.replicate (len - s.length) '0') ++ s

/-- Insert a comma every three digits from the right, as the `'en-US'`
locale does for the integer part. -/
def groupThousands (s : String) : String :=
  let rev := s.data.reverse
  String.mk ((rev.enum.foldr
    (fun p acc =>
      (if p.1 ≠ 0 ∧ p.1 % 3 = 0 then [',', p.2] else [p.2]) ++ acc) []).reverse)

/-- `toFixed` on a non-negative rational: round half-up at the given number
of decimals and render with exactly that many fraction digits. -/
def toFixedNonneg (q : ℚ) (digits : Nat) : String :=
  let scaled : Nat := (q * (10 ^ digits : ℚ) + 1 / 2).floor.toNat
  if digits = 0 then toString (scaled / 10 ^ digits)
  else
    toString (scaled / 10 ^ digits) ++ "." ++
      padLeftZeros (toString (scaled % 10 ^ digits)) digits

/-- JavaScript `Number.prototype.toFixed` on the rational embedding. -/
def toFixed (q : ℚ) (digits : Nat) : String :=
  if q < 0 then "-" ++ toFixedNonneg (-q) digits else toFixedNonneg q digits

/-- `toLocaleString('en-US', { minimumFractionDigits: 2,
maximumFractionDigits: 2 })` on a non-negative rational: two fraction
digits and thousands grouping. -/
def toLocaleString2 (q : ℚ) : String :=
  let scaled : Nat := (q * 100 + 1 / 2).floor.toNat
  groupThousands (toString (scaled / 100)) ++ "." ++
    padLeftZeros (toString (scaled % 100)) 2

/-- The magnitude-based dollar formatting `formatPrice` applies — the
source repeats this three-way branch verbatim for both the live price and
the fallback price. -/
def formatUsd (price : ℚ) : String :=
  if 1000 ≤ price then "$" ++ toLocaleString2 price
  else if 1 ≤ price then "$" ++ toFixed price 2
  else "$" ++ toFixed price 4

/-- `formatPrice`: format the live price when `getPrice` yields one,
otherwise format the static fallback quote, and yield `"--"` only when
the symbol is falsy or no fallback exists. -/
def formatPrice (prices : CryptoPrices) (symbol : String) : String :=
  if symbol = "" then "--"
  else
    match getPrice prices symbol with
    | some price => formatUsd price
    | none =>
      match lookupFallback symbol with
      | some f => formatUsd f.price
      | none => "--"

/-- `ZENTRA_PRICE = 0.5` — the fixed dollar price of the primary token. -/
def ZENTRA_PRICE : ℚ := 1 / 2

/-- One row of the `balances` table as mirrored locally:
`{ user_id, token, balance }` (the columns the hook reads). -/
structure BalanceRow where
  user_id : String
  token : String
  balance : ℚ
deriving Repr, DecidableEq

/-- The `useBalance` hook state: the `balances` snapshot, the `loading`
flag, and the `userIdRef` ref tracking the last seen session user. -/
structure BalanceSyncState where
  balances : List BalanceRow
  loading : Bool
  userIdRef : Option String
deriving Repr, DecidableEq

/-- What one Supabase read inside `loadBalances` settles with:
`{ data, error }` with `data` null or a row list on the error-free path,
an error object, or a thrown exception (the `catch` branch). -/
inductive QueryResult where
  | ok (data : Option (List BalanceRow))
  | err (code : String) (msg : String)
  | exn
deriving Repr, DecidableEq

/-- Whether a query result takes one of the two failure paths of
`loadBalances` (the `error` branch or the `catch` branch). -/
def isFailure : QueryResult → Bool
  | .ok _ => false
  | .err _ _ => true
  | .exn => true

/-- `MAX_RETRIES = 3`. -/
def MAX_RETRIES : Nat := 3

/-- `RETRY_DELAYS = [1000, 2000, 3000]` (milliseconds). -/
def RETRY_DELAYS : List Nat := [1000, 2000, 3000]

/-- `RETRY_DELAYS[retryCount] || 3000` — the wait before the given retry.
The delay only schedules the next attempt; it does not touch the state. -/
def retryDelay (retryCount : Nat) : Nat :=
  (RETRY_DELAYS.get? retryCount).getD 3000

/-- The `finally` block of `loadBalances`:
`if (showLoading || retryCount === 0) setLoading(false)`. -/
def applyFinally (st : BalanceSyncState) (showLoading : Bool) (retryCount : Nat) :
    BalanceSyncState :=
  if showLoading ∨ retryCount = 0 then { st with loading := false } else st

/-- One attempt of `loadBalances` and its retries, indexed by the number of
retries still allowed (`remaining = MAX_RETRIES - retryCount`, so the
attempt at `remaining = 0` is the last one).  `results` gives the query
result of attempt number `retryCount`.  Per attempt: a non-null `data`
replaces the snapshot; an error retries while `retryCount < MAX_RETRIES`
(the scheduled retry runs after the current call's `finally`), and after
the last retry the error branch sets `loading` false and the catch branch
keeps the snapshot untouched. -/
def loadAttempt (showLoading : Bool) (results : Nat → QueryResult) :
    Nat → BalanceSyncState → BalanceSyncState
  | 0, st =>
    match results MAX_RETRIES with
    | .ok (some data) => applyFinally { st with balances := data } showLoading MAX_RETRIES
    | .ok none => applyFinally st showLoading MAX_RETRIES
    | .err _ _ => { st with loading := false }
    | .exn => applyFinally st showLoading MAX_RETRIES
  | (r + 1), st =>
    match results (MAX_RETRIES - (r + 1)) with
    | .ok (some data) =>
      applyFinally { st with balances := data } showLoading (MAX_RETRIES - (r + 1))
    | .ok none => applyFinally st showLoading (MAX_RETRIES - (r + 1))
    | .err _ _ =>
      loadAttempt showLoading results r (applyFinally st showLoading (MAX_RETRIES - (r + 1)))
    | .exn =>
      loadAttempt showLoading results r (applyFinally st showLoading (MAX_RETRIES - (r + 1)))

/-- `loadBalances(showLoading, 0)` for the current session user: a no-op
when there is no user; otherwise show the spinner when asked
(`showLoading && retryCount === 0`) and run the attempt chain starting at
`retryCount = 0`. -/
def loadBalances (user : Option String) (showLoading : Bool)
    (results : Nat → QueryResult) (st : BalanceSyncState) : BalanceSyncState :=
  match user with
  | none => st
  | some _ =>
    let st0 := if showLoading then { st with loading := true } else st
    loadAttempt showLoading results MAX_RETRIES st0

/-- The synchronous prefix of the `useEffect([user])` body in `useBalance`:
clear everything only when the user becomes null; otherwise record the
user id and, when the identity changed, set `loading` without clearing the
snapshot (the source comments: "don't clear immediately to prevent flash
of 0 balance").  The effect then starts `loadBalances()` (modeled
separately), which is what eventually replaces the snapshot. -/
def sessionEffect (st : BalanceSyncState) (user : Option String) : BalanceSyncState :=
  match user with
  | none =>
    if st.userIdRef.isSome then
      { balances := [], loading := false, userIdRef := none }
    else st
  | some uid =>
    let isSameUser := st.userIdRef = some uid
    let st1 := { st with userIdRef := some uid }
    if isSameUser then st1 else { st1 with loading := true }

/-- The subscription statuses the realtime channel callback distinguishes. -/
inductive ChannelStatus where
  | SUBSCRIBED
  | CHANNEL_ERROR
  | TIMED_OUT
  | CLOSED
deriving Repr, DecidableEq

/-- `30000` — the fixed polling interval of the degraded mode. -/
def POLL_INTERVAL_MS : Nat := 30000

/-- The polling-failover state of `setupRealtimeSubscription`: the
`pollInterval` handle (carrying its interval in ms) and the
`isCleaningUp` teardown flag. -/
structure RealtimeState where
  pollInterval : Option Nat
  isCleaningUp : Bool
deriving Repr, DecidableEq

/-- The `.subscribe((status) => ...)` callback: ignore everything during
teardown; on `SUBSCRIBED` clear any active poll; on `CHANNEL_ERROR`,
`TIMED_OUT` (and on `CLOSED`, in its own branch) start a 30-second poll
when none is active and no teardown is in progress. -/
def onStatus (st : RealtimeState) (status : ChannelStatus) : RealtimeState :=
  if st.isCleaningUp then st
  else
    match status with
    | .SUBSCRIBED =>
      if st.pollInterval.isSome then { st with pollInterval := none } else st
    | .CHANNEL_ERROR | .TIMED_OUT =>
      if st.pollInterval.isNone ∧ st.isCleaningUp = false then
        { st with pollInterval := some POLL_INTERVAL_MS }
      else st
    | .CLOSED =>
      if st.pollInterval.isNone ∧ st.isCleaningUp = false then
        { st with pollInterval := some POLL_INTERVAL_MS }
      else st

/-- One tick of the polling fallback: `loadBalances(false)` in the
background (no spinner). -/
def pollTick (user : Option String) (results : Nat → QueryResult)
    (st : BalanceSyncState) : BalanceSyncState :=
  loadBalances user false results st

/-- `getBalance(token)`: the row's amount, or 0 when absent
(`balance?.balance || 0`). -/
def getBalance (balances : List BalanceRow) (token : String) : ℚ :=
  match balances.find? (fun b => b.token == token) with
  | some b => b.balance
  | none => 0

/-- `getTotalPortfolioValue`: walk the snapshot and accumulate
`balance * ZENTRA_PRICE` for `ZENTRA` rows only — the source comments that
other tokens "would use real-time prices, but for now they're 0". -/
def getTotalPortfolioValue (balances : List BalanceRow) : ℚ :=
  balances.foldl
    (fun total b =>
      if b.token = "ZENTRA" then total + b.balance * ZENTRA_PRICE else total) 0

/-- Modelled from the spec: which tokens count as "priced" and at what
price — only the primary token, at its fixed constant.  Used to state the
claim's sum-over-priced-tokens reading of `getTotalPortfolioValue`. -/
def priceOfSpec (token : String) : Option ℚ :=
  if token = "ZENTRA" then some ZENTRA_PRICE else none

/-- The claim's reading of the portfolio total: sum of `amount × price`
over tokens that have a price, unpriced tokens contributing 0. -/
def portfolioValueSpec (balances : List BalanceRow) : ℚ :=
  (balances.map fun b =>
    match priceOfSpec b.token with
    | some p => b.balance * p
    | none => 0).sum

/-- The spec-side per-source projection used to state the merge-priority
claim: a source's entry for a symbol when it is present and positive. -/
def positiveEntry (src : Option CryptoPrices) (symbol : String) : Option PriceEntry :=
  match src with
  | none => none
  | some ps =>
    match ps.lookup symbol with
    | some e => if e.price.gtZero then some e else none
    | none => none

/-- An entry carries a real (non-`NaN`) price that is non-negative. -/
def entryOk (e : PriceEntry) : Prop :=
  ∃ q, e.price = JsNum.num q ∧ 0 ≤ q

/-- Every known symbol has an entry with a non-null, non-negative price. -/
def goodTable (ps : CryptoPrices) : Prop :=
  ∀ s ∈ knownSymbols, ∃ e, ps.lookup s = some e ∧ entryOk e

/-- The condition under which `fetchPrices` passes both early-return guards
and actually runs a fetch cycle. -/
def runCondition (st : PriceState) (now : Nat) : Prop :=
  st.isFetching = false ∧
    ¬(now - st.lastFetchTime < CACHE_DURATION ∧ st.prices ≠ [])

/-! ## Helper lemmas -/

theorem applyFinally_balances (st : BalanceSyncState) (showLoading : Bool)
    (retryCount : Nat) :
    (applyFinally st showLoading retryCount).balances = st.balances := by
  unfold applyFinally; split <;> rfl

theorem loadAttempt_fail_preserves (showLoading : Bool) (results : Nat → QueryResult)
    (hf : ∀ rc, rc ≤ MAX_RETRIES → isFailure (results rc) = true) :
    ∀ (remaining : Nat) (st : BalanceSyncState),
      (loadAttempt showLoading results remaining st).balances = st.balances := by
  intro remaining
  induction remaining with
  | zero =>
    intro st
    have h := hf MAX_RETRIES (Nat.le_refl _)
    cases hres : results MAX_RETRIES with
    | ok data => rw [hres] at h; simp [isFailure] at h
    | err c m => simp [loadAttempt, hres]
    | exn => simp [loadAttempt, hres, applyFinally_balances]
  | succ r ih =>
    intro st
    have h := hf (MAX_RETRIES - (r + 1)) (Nat.sub_le _ _)
    cases hres : results (MAX_RETRIES - (r + 1)) with
    | ok data => rw [hres] at h; simp [isFailure] at h
    | err c m => simp [loadAttempt, hres, ih, applyFinally_balances]
    | exn => simp [loadAttempt, hres, ih, applyFinally_balances]

theorem loadAttempt_balances_cases (showLoading : Bool) (results : Nat → QueryResult) :
    ∀ (remaining : Nat) (st : BalanceSyncState),
      (loadAttempt showLoading results remaining st).balances = st.balances ∨
      ∃ rc data, rc ≤ MAX_RETRIES ∧ results rc = QueryResult.ok (some data) ∧
        (loadAttempt showLoading results remaining st).balances = data := by
  intro remaining
  induction remaining with
  | zero =>
    intro st
    cases hres : results MAX_RETRIES with
    | ok data =>
      cases data with
      | none => left; simp [loadAttempt, hres, applyFinally_balances]
      | some rows =>
        right
        exact ⟨MAX_RETRIES, rows, Nat.le_refl _, hres, by
          simp [loadAttempt, hres, applyFinally_balances]⟩
    | err c m => left; simp [loadAttempt, hres]
    | exn => left; simp [loadAttempt, hres, applyFinally_balances]
  | succ r ih =>
    intro st
    cases hres : results (MAX_RETRIES - (r + 1)) with
    | ok data =>
      cases data with
      | none => left; simp [loadAttempt, hres, applyFinally_balances]
      | some rows =>
        right
        exact ⟨MAX_RETRIES - (r + 1), rows, Nat.sub_le _ _, hres, by
          simp [loadAttempt, hres, applyFinally_balances]⟩
    | err c m =>
      have := ih (applyFinally st showLoading (MAX_RETRIES - (r + 1)))
      rcases this with heq | ⟨rc, rows, hrc, hok, heq⟩
      · left; simp [loadAttempt, hres, heq, applyFinally_balances]
      · right; exact ⟨rc, rows, hrc, hok, by simp [loadAttempt, hres, heq]⟩
    | exn =>
      have := ih (applyFinally st showLoading (MAX_RETRIES - (r + 1)))
      rcases this with heq | ⟨rc, rows, hrc, hok, heq⟩
      · left; simp [loadAttempt, hres, heq, applyFinally_balances]
      · right; exact ⟨rc, rows, hrc, hok, by simp [loadAttempt, hres, heq]⟩

theorem lookup_keyed_not_mem (g : String → Option PriceEntry) :
    ∀ (l : List String) (s : String), s ∉ l →
      (l.filterMap fun t => (g t).map fun e => (t, e)).lookup s = none := by
  intro l
  induction l with
  | nil => intro s _; rfl
  | cons t l ih =>
    intro s hs
    have hne : (s == t) = false :=
      beq_eq_false_iff_ne.mpr fun h => hs (by simp [h])
    have hs' : s ∉ l := fun h => hs (List.mem_cons_of_mem _ h)
    cases hgt : g t with
    | none => simpa [List.filterMap_cons, hgt] using ih s hs'
    | some e => simp [List.filterMap_cons, hgt, List.lookup, hne, ih s hs']

theorem lookup_keyed_mem (g : String → Option PriceEntry) :
    ∀ (l : List String) (s : String), s ∈ l → l.Nodup →
      (l.filterMap fun t => (g t).map fun e => (t, e)).lookup s = g s := by
  intro l
  induction l with
  | nil => intro s hs _; cases hs
  | cons t l ih =>
    intro s hs hnd
    rcases List.mem_cons.mp hs with rfl | hmem
    · have hnotmem : s ∉ l := (List.nodup_cons.mp hnd).1
      cases hgs : g s with
      | none =>
        simpa [List.filterMap_cons, hgs] using lookup_keyed_not_mem g l s hnotmem
      | some e => simp [List.filterMap_cons, hgs, List.lookup]
    · have hnd' := (List.nodup_cons.mp hnd).2
      have hts : t ∉ l := (List.nodup_cons.mp hnd).1
      have hne : (s == t) = false :=
        beq_eq_false_iff_ne.mpr fun h => hts (h ▸ hmem)
      cases hgt : g t with
      | none => simpa [List.filterMap_cons, hgt] using ih s hmem hnd'
      | some e => simp [List.filterMap_cons, hgt, List.lookup, hne, ih s hmem hnd']

theorem knownSymbols_nodup : knownSymbols.Nodup := by decide

theorem mergePrices_lookup (srcs : List (Option CryptoPrices)) (s : String)
    (hs : s ∈ knownSymbols) :
    (mergePrices srcs).lookup s = firstPositive s srcs := by
  unfold mergePrices
  exact lookup_keyed_mem _ knownSymbols s hs knownSymbols_nodup

theorem backfill_lookup (m : CryptoPrices) (now : Nat) (s : String)
    (hs : s ∈ knownSymbols) :
    (backfill m now).lookup s = finalEntry m now s := by
  unfold backfill
  exact lookup_keyed_mem _ knownSymbols s hs knownSymbols_nodup

theorem firstPositive_gtZero (symbol : String) :
    ∀ (srcs : List (Option CryptoPrices)) (e : PriceEntry),
      firstPositive symbol srcs = some e → e.price.gtZero = true := by
  intro srcs
  induction srcs with
  | nil => intro e h; cases h
  | cons src rest ih =>
    intro e h
    cases src with
    | none => exact ih e h
    | some ps =>
      simp only [firstPositive] at h
      cases hl : ps.lookup symbol with
      | none => rw [hl] at h; exact ih e h
      | some e1 =>
        rw [hl] at h
        cases hgt : e1.price.gtZero with
        | true => simp [hgt] at h; rwa [← h]
        | false => simp [hgt] at h; exact ih e h

theorem gtZero_num (n : JsNum) (h : n.gtZero = true) : ∃ q, n = JsNum.num q ∧ 0 < q := by
  cases n with
  | num q => exact ⟨q, rfl, by simpa [JsNum.gtZero] using h⟩
  | nan => simp [JsNum.gtZero] at h

theorem lookupFallback_known (s : String) (hs : s ∈ knownSymbols) :
    ∃ f, lookupFallback s = some f ∧ 0 ≤ f.price := by
  fin_cases hs
  · exact ⟨_, rfl, by norm_num⟩
  · exact ⟨_, rfl, by norm_num⟩
  · exact ⟨_, rfl, by norm_num⟩
  · exact ⟨_, rfl, by norm_num⟩

theorem goodTable_backfill_merge (srcs : List (Option CryptoPrices)) (now : Nat) :
    goodTable (backfill (mergePrices srcs) now) := by
  intro s hs
  rw [backfill_lookup _ now s hs]
  cases hm : (mergePrices srcs).lookup s with
  | some e =>
    have hfp : firstPositive s srcs = some e := by
      rw [← mergePrices_lookup srcs s hs]; exact hm
    obtain ⟨q, hq, hqpos⟩ := gtZero_num _ (firstPositive_gtZero s srcs e hfp)
    have hnz : e.price.isZero = false := by
      rw [hq]; simpa [JsNum.isZero] using ne_of_gt hqpos
    refine ⟨e, ?_, ⟨q, hq, le_of_lt hqpos⟩⟩
    simp [finalEntry, hm, hnz]
  | none =>
    obtain ⟨f, hf, hfpos⟩ := lookupFallback_known s hs
    exact ⟨fallbackEntry f now, by simp [finalEntry, hm, hf], ⟨f.price, rfl, hfpos⟩⟩

theorem goodTable_initial (now : Nat) : goodTable (initialPrices now) := by
  intro s hs
  fin_cases hs
  · exact ⟨_, rfl, ⟨95000, rfl, by norm_num⟩⟩
  · exact ⟨_, rfl, ⟨3500, rfl, by norm_num⟩⟩
  · exact ⟨_, rfl, ⟨1, rfl, by norm_num⟩⟩
  · exact ⟨_, rfl, ⟨150, rfl, by norm_num⟩⟩

theorem finalEntry_BTC_isSome (m : CryptoPrices) (now : Nat) :
    (finalEntry m now "BTC").isSome = true := by
  unfold finalEntry
  cases hm : m.lookup "BTC" with
  | some e =>
    cases hz : e.price.isZero <;> simp [hz, lookupFallback, FALLBACK_PRICES]
  | none => simp [lookupFallback, FALLBACK_PRICES]

theorem backfill_ne_nil (m : CryptoPrices) (now : Nat) : backfill m now ≠ [] := by
  have hsome := finalEntry_BTC_isSome m now
  unfold backfill knownSymbols
  cases he : finalEntry m now "BTC" with
  | none => rw [he] at hsome; simp at hsome
  | some e => simp [List.filterMap_cons, he]

theorem firstPositive_cons (src : Option CryptoPrices)
    (rest : List (Option CryptoPrices)) (s : String) :
    firstPositive s (src :: rest) =
      match positiveEntry src s with
      | some e => some e
      | none => firstPositive s rest := by
  cases src with
  | none => simp [firstPositive, positiveEntry]
  | some ps =>
    simp only [firstPositive, positiveEntry]
    cases hl : ps.lookup s with
    | none => simp
    | some e => cases hgt : e.price.gtZero <;> simp [hgt]

theorem dollar_append_ne (s : String) : ("$" ++ s) ≠ "--" := by
  intro h
  have h2 := congrArg String.data h
  rw [String.data_append] at h2
  simp at h2

theorem formatUsd_ne (q : ℚ) : formatUsd q ≠ "--" := by
  unfold formatUsd
  split_ifs <;> exact dollar_append_ne _

/-! ## Claim theorems -/

/-- C1: the mount effect seeds a table with every known symbol priced, and
any `fetchPrices` call — whatever the three sources returned, including all
failing — leaves a table in which every known symbol has an entry with a
non-null price `≥ 0`, back-filled from the static fallback table whenever
no source supplied a positive price.  The hypothesis covers the two early
returns: either the table already satisfies the guarantee, or the call
passes the guards and runs a full cycle. -/
theorem fetchPrices_fallback_guarantee (now0 : Nat) (st : PriceState) (now : Nat)
    (cg cc bn : Option CryptoPrices)
    (h : goodTable st.prices ∨ runCondition st now) :
    goodTable (initialPrices now0) ∧
    goodTable (fetchPrices st now cg cc bn).1.prices := by
  refine ⟨goodTable_initial now0, ?_⟩
  by_cases hf : st.isFetching
  · have hg : goodTable st.prices := by
      rcases h with hg | ⟨hrun, _⟩
      · exact hg
      · rw [hrun] at hf; cases hf
    simpa [fetchPrices, hf] using hg
  · by_cases hc : now - st.lastFetchTime < CACHE_DURATION ∧ st.prices ≠ []
    · have hg : goodTable st.prices := by
        rcases h with hg | ⟨_, hnc⟩
        · exact hg
        · exact absurd hc hnc
      simpa [fetchPrices, hf, hc] using hg
    · simpa [fetchPrices, hf, hc] using
        goodTable_backfill_merge [cg, cc, bn] now

/-- C1 witness: a full fetch cycle from the empty table with every source
failing still yields the guarantee (and the seeded table satisfies it). -/
theorem fetchPrices_fallback_guarantee_inst :
    goodTable (initialPrices 0) ∧
    goodTable (fetchPrices
      { prices := [], lastFetchTime := 0, isFetching := false,
        loading := true, error := none } 0 none none none).1.prices :=
  fetchPrices_fallback_guarantee 0
    { prices := [], lastFetchTime := 0, isFetching := false,
      loading := true, error := none } 0 none none none
    (Or.inr ⟨rfl, by decide⟩)

/-- C6: the scenario — source A (CoinGecko) returns only BTC at 95500,
source B (CoinCap) returns BTC at 95400 and ETH at 3400, source C
(Binance) fails — merges to BTC from A and ETH from B, with USDT and SOL
back-filled from the static fallback table; and in general the merged
entry of a known symbol is the first present-and-positive entry in the
fixed order CoinGecko, CoinCap, Binance — a source's entry verbatim, never
an average. -/
theorem mergePrices_priority_scenario :
    (fetchPrices
      { prices := [], lastFetchTime := 0, isFetching := false,
        loading := true, error := none } 1000
      (some [("BTC", { price := JsNum.num 95500, change24h := 2, lastUpdated := 11 })])
      (some [("BTC", { price := JsNum.num 95400, change24h := 1, lastUpdated := 12 }),
             ("ETH", { price := JsNum.num 3400, change24h := 3, lastUpdated := 13 })])
      none
      = ({ prices :=
            [("BTC", { price := JsNum.num 95500, change24h := 2, lastUpdated := 11 }),
             ("ETH", { price := JsNum.num 3400, change24h := 3, lastUpdated := 13 }),
             ("USDT", { price := JsNum.num 1, change24h := 1 / 100, lastUpdated := 1000 }),
             ("SOL", { price := JsNum.num 150, change24h := 16 / 5, lastUpdated := 1000 })],
           lastFetchTime := 1000, isFetching := false, loading := false,
           error := some "Some prices unavailable, using fallback for missing tokens" },
         true)) ∧
    (∀ (cg cc bn : Option CryptoPrices) (s : String), s ∈ knownSymbols →
      (mergePrices [cg, cc, bn]).lookup s =
        match positiveEntry cg s with
        | some e => some e
        | none =>
          match positiveEntry cc s with
          | some e => some e
          | none => positiveEntry bn s) := by
  constructor
  · rfl
  · intro cg cc bn s hs
    rw [mergePrices_lookup _ s hs, firstPositive_cons, firstPositive_cons,
      firstPositive_cons]
    cases positiveEntry cg s with
    | some e => rfl
    | none =>
      cases positiveEntry cc s with
      | some e => rfl
      | none => cases positiveEntry bn s <;> rfl

/-- C6 witness: the general priority statement at the scenario's sources
and symbol BTC. -/
theorem mergePrices_priority_scenario_inst :
    (mergePrices
      [some [("BTC", { price := JsNum.num 95500, change24h := 2, lastUpdated := 11 })],
       some [("BTC", { price := JsNum.num 95400, change24h := 1, lastUpdated := 12 }),
             ("ETH", { price := JsNum.num 3400, change24h := 3, lastUpdated := 13 })],
       none]).lookup "BTC"
      = some { price := JsNum.num 95500, change24h := 2, lastUpdated := 11 } := by
  rw [mergePrices_priority_scenario.2
    (some [("BTC", { price := JsNum.num 95500, change24h := 2, lastUpdated := 11 })])
    (some [("BTC", { price := JsNum.num 95400, change24h := 1, lastUpdated := 12 }),
           ("ETH", { price := JsNum.num 3400, change24h := 3, lastUpdated := 13 })])
    none "BTC" (by decide)]
  decide

/-- C7: a `fetchPrices` call that passes the guards performs a network
round, stamps its time, and leaves a non-empty table; any second call
within the 30-second cache window then returns without fetching and leaves
the table (and the whole state) unchanged — so the pair performs at most
one network round per source. -/
theorem fetchPrices_cache_noop (st : PriceState) (t1 : Nat)
    (cg cc bn : Option CryptoPrices)
    (h1 : st.isFetching = false)
    (h2 : ¬(t1 - st.lastFetchTime < CACHE_DURATION ∧ st.prices ≠ [])) :
    (fetchPrices st t1 cg cc bn).2 = true ∧
    (fetchPrices st t1 cg cc bn).1.lastFetchTime = t1 ∧
    (fetchPrices st t1 cg cc bn).1.prices ≠ [] ∧
    (∀ (t2 : Nat) (cg2 cc2 bn2 : Option CryptoPrices), t2 - t1 < CACHE_DURATION →
      fetchPrices (fetchPrices st t1 cg cc bn).1 t2 cg2 cc2 bn2
        = ((fetchPrices st t1 cg cc bn).1, false)) := by
  have heq : fetchPrices st t1 cg cc bn
      = ({ prices := backfill (mergePrices [cg, cc, bn]) t1, lastFetchTime := t1,
           isFetching := false, loading := false,
           error :=
             if mergePrices [cg, cc, bn] = [] then
               some "All APIs failed, using fallback prices"
             else if (mergePrices [cg, cc, bn]).length < knownSymbols.length then
               some "Some prices unavailable, using fallback for missing tokens"
             else none }, true) := by
    simp [fetchPrices, h1, h2]
  rw [heq]
  refine ⟨rfl, rfl, backfill_ne_nil _ t1, ?_⟩
  intro t2 cg2 cc2 bn2 ht2
  simp [fetchPrices, ht2, backfill_ne_nil]

/-- C7 witness: with the cycle run at time 0, a second call at time 10
is a no-op with no network round. -/
theorem fetchPrices_cache_noop_inst :
    fetchPrices (fetchPrices
        { prices := [], lastFetchTime := 0, isFetching := false,
          loading := true, error := none } 0 none none none).1 10 none none none
      = ((fetchPrices
        { prices := [], lastFetchTime := 0, isFetching := false,
          loading := true, error := none } 0 none none none).1, false) :=
  (fetchPrices_cache_noop
    { prices := [], lastFetchTime := 0, isFetching := false,
      loading := true, error := none } 0 none none none rfl (by decide)).2.2.2
    10 none none none (by decide)

/-- C2 counterexample: with the snapshot holding user A's row and the
session user switching from "A" to "B", the effect leaves A's snapshot in
place — it is not cleared before B's first load. -/
theorem sessionEffect_switch_cex :
    (sessionEffect
      { balances := [{ user_id := "A", token := "ZENTRA", balance := 5 }],
        loading := false, userIdRef := some "A" } (some "B")).balances
      = [{ user_id := "A", token := "ZENTRA", balance := 5 }] ∧
    ([{ user_id := "A", token := "ZENTRA", balance := 5 }] : List BalanceRow) ≠ [] := by
  exact ⟨rfl, by simp⟩

/-- C2 (amended): when the session user changes from A to a different B,
the effect does not clear A's snapshot — it keeps the rows, sets `loading`
and records B, so A's stale snapshot stays visible until B's load replaces
it; when the same user is merely re-validated, neither the snapshot nor
the loading flag changes. -/
theorem sessionEffect_transition (st : BalanceSyncState) (a b : String)
    (href : st.userIdRef = some a) :
    (a ≠ b →
      (sessionEffect st (some b)).balances = st.balances ∧
      (sessionEffect st (some b)).loading = true ∧
      (sessionEffect st (some b)).userIdRef = some b) ∧
    ((sessionEffect st (some a)).balances = st.balances ∧
     (sessionEffect st (some a)).loading = st.loading ∧
     (sessionEffect st (some a)).userIdRef = some a) := by
  constructor
  · intro hne
    have hnb : ¬(st.userIdRef = some b) := by rw [href]; simp [hne]
    simp [sessionEffect, hnb]
  · simp [sessionEffect, href]

/-- C2 witness: the amended transition at a concrete state and user pair. -/
theorem sessionEffect_transition_inst :
    (sessionEffect
      { balances := [{ user_id := "A", token := "ZENTRA", balance := 5 }],
        loading := false, userIdRef := some "A" } (some "B")).loading = true :=
  ((sessionEffect_transition
    { balances := [{ user_id := "A", token := "ZENTRA", balance := 5 }],
      loading := false, userIdRef := some "A" } "A" "B" rfl).1 (by decide)).2.1

/-- C3: when every attempt of a `loadBalances` call fails (error or thrown
exception, through all retries), the snapshot afterwards is exactly the
snapshot before — no entry is removed and nothing is cleared. -/
theorem loadBalances_failure_preserves (user : Option String) (showLoading : Bool)
    (results : Nat → QueryResult) (st : BalanceSyncState)
    (hf : ∀ rc, rc ≤ MAX_RETRIES → isFailure (results rc) = true) :
    (loadBalances user showLoading results st).balances = st.balances := by
  cases user with
  | none => rfl
  | some u =>
    cases showLoading <;>
      simp [loadBalances, loadAttempt_fail_preserves _ results hf]

/-- C3 witness: a fully failing load over a non-empty snapshot keeps it. -/
theorem loadBalances_failure_preserves_inst :
    (loadBalances (some "A") false (fun _ => QueryResult.err "500" "boom")
      { balances := [{ user_id := "A", token := "ZENTRA", balance := 5 }],
        loading := false, userIdRef := some "A" }).balances
      = [{ user_id := "A", token := "ZENTRA", balance := 5 }] :=
  loadBalances_failure_preserves _ _ _ _ (fun _ _ => rfl)

/-- C4 counterexample: a *successful* read that returns an empty row set
does replace a non-empty snapshot with the empty one, so "the snapshot
after the call is non-empty" fails. -/
theorem loadBalances_empty_success_cex :
    (loadBalances (some "A") false (fun _ => QueryResult.ok (some []))
      { balances := [{ user_id := "A", token := "ZENTRA", balance := 5 }],
        loading := false, userIdRef := some "A" }).balances = ([] : List BalanceRow) ∧
    ([{ user_id := "A", token := "ZENTRA", balance := 5 }] : List BalanceRow) ≠ [] := by
  exact ⟨rfl, by simp⟩

/-- C4 (amended): `loadBalances` changes the snapshot only to data returned
by a successful read — after any call the snapshot is either unchanged or
equal to the row set some successful attempt returned.  A failed read never
replaces the snapshot, but a successful read returning the empty set does
replace a non-empty snapshot with the empty one. -/
theorem loadBalances_update_source (user : Option String) (showLoading : Bool)
    (results : Nat → QueryResult) (st : BalanceSyncState) :
    (loadBalances user showLoading results st).balances = st.balances ∨
    ∃ rc data, rc ≤ MAX_RETRIES ∧ results rc = QueryResult.ok (some data) ∧
      (loadBalances user showLoading results st).balances = data := by
  cases user with
  | none => left; rfl
  | some u =>
    have h := loadAttempt_balances_cases showLoading results MAX_RETRIES
      (if showLoading then { st with loading := true } else st)
    cases showLoading <;> simpa [loadBalances] using h

/-- C5: from a closed breaker with a zeroed counter, three consecutive
failures open the breaker; while the cooldown has not elapsed since the
last failure every subsequent attempt returns no data, performs no network
I/O and leaves the breaker unchanged; once more than the cooldown has
elapsed, the next check closes the breaker and resets the counter to
zero. -/
theorem circuitBreaker_open_shortcircuit (b : CircuitBreakerState) (t1 t2 t3 : Nat)
    (hopen : b.isOpen = false) (hzero : b.failures = 0) :
    (recordFailure (recordFailure (recordFailure b t1) t2) t3).isOpen = true ∧
    (∀ now outcome, now - t3 ≤ CIRCUIT_BREAKER_RESET_TIME →
      fetchAttempt (recordFailure (recordFailure (recordFailure b t1) t2) t3) now outcome
        = (none, recordFailure (recordFailure (recordFailure b t1) t2) t3, false)) ∧
    (∀ now, CIRCUIT_BREAKER_RESET_TIME < now - t3 →
      checkCircuitBreaker (recordFailure (recordFailure (recordFailure b t1) t2) t3) now
        = (true, { failures := 0, lastFailureTime := t3, isOpen := false })) := by
  obtain ⟨f, lt, io⟩ := b
  simp only [CircuitBreakerState.mk.injEq] at hopen hzero
  subst hzero; subst hopen
  have hb3 : recordFailure (recordFailure (recordFailure
      ({ failures := 0, lastFailureTime := lt, isOpen := false } :
        CircuitBreakerState) t1) t2) t3
      = { failures := 3, lastFailureTime := t3, isOpen := true } := by
    simp [recordFailure, CIRCUIT_BREAKER_THRESHOLD]
  rw [hb3]
  refine ⟨rfl, ?_, ?_⟩
  · intro now outcome hle
    have : ¬ CIRCUIT_BREAKER_RESET_TIME < now - t3 := Nat.not_lt.mpr hle
    simp [fetchAttempt, checkCircuitBreaker, this]
  · intro now hlt
    simp [checkCircuitBreaker, hlt]

/-- C5 witness: three failures at time 100 open the breaker; an attempt at
time 200 (inside the five-minute cooldown) is short-circuited with no
network I/O and no state change. -/
theorem circuitBreaker_open_shortcircuit_inst :
    fetchAttempt (recordFailure (recordFailure (recordFailure
        ({ failures := 0, lastFailureTime := 0, isOpen := false } :
          CircuitBreakerState) 100) 100) 100) 200 NetworkOutcome.failure
      = (none, recordFailure (recordFailure (recordFailure
          ({ failures := 0, lastFailureTime := 0, isOpen := false } :
            CircuitBreakerState) 100) 100) 100, false) :=
  (circuitBreaker_open_shortcircuit
    { failures := 0, lastFailureTime := 0, isOpen := false }
    100 100 100 rfl rfl).2.1 200 NetworkOutcome.failure (by decide)

/-- C8: with no teardown in progress, a `CHANNEL_ERROR` (or `TIMED_OUT`)
status with no poll active starts the fixed 30-second poll; a later
`SUBSCRIBED` status cancels any active poll; and each poll tick runs
`loadBalances` in the background (no spinner). -/
theorem onStatus_poll_failover (st : RealtimeState) (hclean : st.isCleaningUp = false) :
    (st.pollInterval = none →
      onStatus st ChannelStatus.CHANNEL_ERROR
        = { st with pollInterval := some POLL_INTERVAL_MS } ∧
      onStatus st ChannelStatus.TIMED_OUT
        = { st with pollInterval := some POLL_INTERVAL_MS }) ∧
    (onStatus st ChannelStatus.SUBSCRIBED).pollInterval = none ∧
    (∀ user results bst, pollTick user results bst = loadBalances user false results bst) := by
  refine ⟨?_, ?_, fun _ _ _ => rfl⟩
  · intro hnone
    constructor <;> simp [onStatus, hclean, hnone]
  · cases hpi : st.pollInterval <;> simp [onStatus, hclean, hpi]

/-- C8 witness: from a healthy state, `CHANNEL_ERROR` starts the 30-second
poll and a subsequent `SUBSCRIBED` cancels it. -/
theorem onStatus_poll_failover_inst :
    onStatus ({ pollInterval := none, isCleaningUp := false } : RealtimeState)
        ChannelStatus.CHANNEL_ERROR
      = { pollInterval := some POLL_INTERVAL_MS, isCleaningUp := false } ∧
    (onStatus ({ pollInterval := some POLL_INTERVAL_MS, isCleaningUp := false } :
        RealtimeState) ChannelStatus.SUBSCRIBED).pollInterval = none :=
  ⟨((onStatus_poll_failover { pollInterval := none, isCleaningUp := false } rfl).1
      rfl).1,
    (onStatus_poll_failover
      ({ pollInterval := some POLL_INTERVAL_MS, isCleaningUp := false } :
        RealtimeState) rfl).2.1⟩

/-- C9 helper: the accumulator form of the `ZENTRA`-only fold. -/
theorem portfolio_foldl (bs : List BalanceRow) : ∀ c : ℚ,
    bs.foldl (fun total b =>
      if b.token = "ZENTRA" then total + b.balance * ZENTRA_PRICE else total) c
      = c + portfolioValueSpec bs := by
  induction bs with
  | nil => intro c; simp [portfolioValueSpec]
  | cons b bs ih =>
    intro c
    by_cases hb : b.token = "ZENTRA"
    · simp [hb, ih, portfolioValueSpec, priceOfSpec]; ring
    · simp [hb, ih, portfolioValueSpec, priceOfSpec]

/-- C9: `getTotalPortfolioValue` equals the sum over priced tokens of
`amount × price`, where only the primary token `ZENTRA` has a price (its
fixed constant) and every unpriced token contributes 0. -/
theorem getTotalPortfolioValue_spec (bs : List BalanceRow) :
    getTotalPortfolioValue bs = portfolioValueSpec bs := by
  simpa [getTotalPortfolioValue] using portfolio_foldl bs 0

/-- C10: `getPrice` yields `null` exactly when the symbol is falsy, no
quote entry exists, or the stored price is exactly `0` or `NaN`; whenever
it yields `null`, `formatPrice` formats the static fallback constant for
the symbol instead; and `formatPrice` yields the text `"--"` exactly when
`getPrice` is `null` and no fallback constant exists either. -/
theorem getPrice_null_fallback (prices : CryptoPrices) (symbol : String) :
    (getPrice prices symbol = none ↔
      symbol = "" ∨ prices.lookup symbol = none ∨
      ∃ e, prices.lookup symbol = some e ∧
        (e.price = JsNum.nan ∨ e.price = JsNum.num 0)) ∧
    (getPrice prices symbol = none →
      formatPrice prices symbol =
        match lookupFallback symbol with
        | some f => formatUsd f.price
        | none => "--") ∧
    (formatPrice prices symbol = "--" ↔
      getPrice prices symbol = none ∧ lookupFallback symbol = none) := by
  by_cases hsym : symbol = ""
  · subst hsym
    have hlf : lookupFallback "" = none := rfl
    refine ⟨by simp [getPrice], ?_, ?_⟩
    · intro _
      simp [formatPrice, hlf]
    · simp [formatPrice, getPrice, hlf]
  · cases hl : prices.lookup symbol with
    | none =>
      have hgp : getPrice prices symbol = none := by simp [getPrice, hsym, hl]
      refine ⟨by simp [hgp, hl, hsym], ?_, ?_⟩
      · intro _
        simp [formatPrice, hsym, hgp]
      · cases hlf : lookupFallback symbol with
        | some f => simp [formatPrice, hsym, hgp, hlf, formatUsd_ne f.price]
        | none => simp [formatPrice, hsym, hgp, hlf]
    | some e =>
      cases hp : e.price with
      | nan =>
        have hgp : getPrice prices symbol = none := by
          simp [getPrice, hsym, hl, hp]
        refine ⟨by simp [hgp, hl, hp, hsym], ?_, ?_⟩
        · intro _
          simp [formatPrice, hsym, hgp]
        · cases hlf : lookupFallback symbol with
          | some f => simp [formatPrice, hsym, hgp, hlf, formatUsd_ne f.price]
          | none => simp [formatPrice, hsym, hgp, hlf]
      | num q =>
        by_cases hq : q = 0
        · subst hq
          have hgp : getPrice prices symbol = none := by
            simp [getPrice, hsym, hl, hp]
          refine ⟨by simp [hgp, hl, hp, hsym], ?_, ?_⟩
          · intro _
            simp [formatPrice, hsym, hgp]
          · cases hlf : lookupFallback symbol with
            | some f => simp [formatPrice, hsym, hgp, hlf, formatUsd_ne f.price]
            | none => simp [formatPrice, hsym, hgp, hlf]
        · have hgp : getPrice prices symbol = some q := by
            simp [getPrice, hsym, hl, hp, hq]
          refine ⟨by simp [hgp, hl, hp, hsym, hq], ?_, ?_⟩
          · intro h
            rw [hgp] at h
            cases h
          · simp [formatPrice, hsym, hgp, formatUsd_ne q]

/-- C10 witness: on the empty table `getPrice` of SOL is null, and
`formatPrice` formats the static fallback constant 150 instead. -/
theorem getPrice_null_fallback_inst :
    formatPrice ([] : CryptoPrices) "SOL" = formatUsd 150 :=
  (getPrice_null_fallback [] "SOL").2.1 rfl

end Zentra
